import Mathlib

/-!
Verification of src/ai_moderator.py.

The moderation helpers build the regex pattern
  r"\\b(" + "|".join(re.escape(k) for k in BANNED_KEYWORDS) + r")\\b"
Because the sides are raw strings, the compiled pattern text is
\\b(kill|hack|bomb)\\b : the atom `\\` matches one literal backslash
character and the following `b` is a literal letter, so the pattern
matches a literal backslash, a letter b, one keyword, a literal
backslash and a letter b, all case-insensitively (re.IGNORECASE makes
the letters match either case; a backslash has no case).  Every
alternative of the pattern is exactly 8 characters long.  We embed the
matcher character by character over List Char, with case folding by
Char.toLower mirroring how IGNORECASE compares ASCII letters.
-/

/-- The banned keyword list of the script, as character lists. -/
def BANNED_KEYWORDS : List (List Char) :=
  [['k', 'i', 'l', 'l'], ['h', 'a', 'c', 'k'], ['b', 'o', 'm', 'b']]

/-- Case-insensitive character comparison, as re.IGNORECASE performs on
ASCII pattern and subject characters. -/
def ciEq (a b : Char) : Bool := a.toLower == b.toLower

/-- Does the pattern (first list) match case-insensitively at the very
start of the subject (second list)? -/
def ciStartsWith : List Char → List Char → Bool
  | [], _ => true
  | _ :: _, [] => false
  | p :: ps, c :: cs => ciEq p c && ciStartsWith ps cs

/-- The three alternatives of the compiled pattern
\\b(kill|hack|bomb)\\b, each one a literal backslash, a letter b, the
keyword, a literal backslash and a letter b. -/
def bannedPatterns : List (List Char) :=
  BANNED_KEYWORDS.map (fun k => '\\' :: 'b' :: (k ++ ['\\', 'b']))

/-- Does some alternative of the pattern match at the start of s? -/
def matchBannedAt (s : List Char) : Bool :=
  bannedPatterns.any (fun p => ciStartsWith p s)

/-- re.search semantics: some alternative matches at some position. -/
def containsBannedAux : List Char → Bool
  | [] => false
  | c :: rest => matchBannedAt (c :: rest) || containsBannedAux rest

/-- The replacement text "[REDACTED]" returned by _replace. -/
def MARKER : List Char := ['[', 'R', 'E', 'D', 'A', 'C', 'T', 'E', 'D', ']']

/-- re.sub semantics: scan left to right; at a match emit the marker and
skip the 8 matched characters (every alternative has length 8), else
copy one character.  The first argument counts characters still to skip
from a match, so the recursion is structural on the subject list. -/
def redactGo : Nat → List Char → List Char
  | _, [] => []
  | n + 1, _ :: rest => redactGo n rest
  | 0, c :: rest =>
    if matchBannedAt (c :: rest) then MARKER ++ redactGo 7 rest
    else c :: redactGo 0 rest

/-- contains_banned_keyword from src/ai_moderator.py. -/
def contains_banned_keyword (s : String) : Bool :=
  containsBannedAux s.data

/-- redact_banned_keywords from src/ai_moderator.py. -/
def redact_banned_keywords (s : String) : String :=
  String.mk (redactGo 0 s.data)

/-!
Model of the CLI flow.  The script, at import time, reads the
OPENAI_API_KEY environment variable and, when it is unset or empty
(Python falsiness of a missing or empty string), prints two error lines
and calls sys.exit(1); otherwise main() runs: it prints a banner, reads
one line, strips it, and walks the moderation / request / display
sequence.  We model printed lines (print calls), whether input was
read, whether the input moderation check ran, whether the network
request was issued, and the process exit code.  The outcome of the one
HTTP request is a parameter: an HTTP error with an optional decoded
error body, another exception, or a response carrying its raw payload
rendering and, when the shape is as expected, the text found at
choices[0].message.content.
-/

/-- Outcome of the call_chat_completion request, as seen by main. -/
inductive ApiOutcome where
  | httpError (msg : String) (body : Option String)
  | otherError (msg : String)
  | success (raw : String) (content : Option String)

/-- Observable effects of one run of the process. -/
structure RunResult where
  printed : List String
  promptRead : Bool
  inputModerationChecked : Bool
  networkCalled : Bool
  exitCode : Nat
  deriving DecidableEq, Repr

/-- The two banner lines printed at the top of main. -/
def bannerLines : List String :=
  ["AI Moderator CLI", "Enter your prompt. Press Enter when done."]

/-- The two lines printed when the credential is missing. -/
def missingKeyLines : List String :=
  ["ERROR: Please set OPENAI_API_KEY as an environment variable.",
   "E.g., export OPENAI_API_KEY=\x27sk-...\x27 (Unix) or setx OPENAI_API_KEY \"sk-...\" (Windows)"]

/-- The whitespace set of Python str.strip() for ASCII text. -/
def isPySpace (c : Char) : Bool :=
  c = ' ' || c = '\t' || c = '\n' || c = '\r' || c = '\x0B' || c = '\x0C'

/-- Python str.strip(): remove leading and trailing whitespace. -/
def pyStrip (s : String) : String :=
  String.mk (((s.data.dropWhile isPySpace).reverse.dropWhile isPySpace).reverse)

/-- Body of main() after the banner: strip the input, reject empty
input, run input moderation, issue the request, parse and display. -/
def mainRun (rawInput : String) (api : ApiOutcome) : RunResult :=
  let user_prompt := pyStrip rawInput
  if user_prompt = "" then
    ⟨bannerLines ++ ["No prompt provided. Exiting."], true, false, false, 0⟩
  else if contains_banned_keyword user_prompt then
    ⟨bannerLines ++ ["Your input violated the moderation policy (banned keywords detected)."],
      true, true, false, 0⟩
  else
    match api with
    | .httpError msg body =>
      ⟨bannerLines ++ ["API request failed: " ++ msg] ++ body.toList, true, true, true, 0⟩
    | .otherError msg =>
      ⟨bannerLines ++ ["Error while calling API: " ++ msg], true, true, true, 0⟩
    | .success raw none =>
      ⟨bannerLines ++ ["Unexpected API response format:", raw], true, true, true, 0⟩
    | .success _ (some text) =>
      if contains_banned_keyword text then
        ⟨bannerLines ++ ["AI response contained disallowed content and has been redacted:",
          redact_banned_keywords text], true, true, true, 0⟩
      else
        ⟨bannerLines ++ ["AI response:", text], true, true, true, 0⟩

/-- Whole process: the import-time credential check, then main.  The
environment value is none when the variable is absent; Python treats
both an absent and an empty value as falsy. -/
def runProgram (envKey : Option String) (rawInput : String) (api : ApiOutcome) : RunResult :=
  match envKey with
  | none => ⟨missingKeyLines, false, false, false, 1⟩
  | some k => if k = "" then ⟨missingKeyLines, false, false, false, 1⟩ else mainRun rawInput api

/-!
Helper lemmas.  Case folding by Char.toLower maps no character other
than the backslash itself to a backslash, so a pattern alternative,
whose first atom is the literal backslash, can only match at a
backslash character.
-/

theorem char_toNat_ofNat_lt (m : Nat) (h : m < 55296) : (Char.ofNat m).toNat = m := by
  have hv : Nat.isValidChar m := Or.inl h
  rw [Char.ofNat, dif_pos hv]
  simp [Char.ofNatAux, Char.toNat, UInt32.toNat, BitVec.toNat_ofNatLt]

theorem eq_backslash_of_toLower {c : Char} (h : c.toLower = '\\') : c = '\\' := by
  have h0 : (if c.toNat ≥ 65 ∧ c.toNat ≤ 90 then Char.ofNat (c.toNat + 32) else c) = '\\' := h
  split at h0
  · next hc =>
      have h1 := congrArg Char.toNat h0
      rw [char_toNat_ofNat_lt _ (by omega)] at h1
      have h2 : ('\\' : Char).toNat = 92 := by decide
      omega
  · exact h0

theorem eq_backslash_of_ciEq {c : Char} (h : ciEq '\\' c = true) : c = '\\' := by
  have h1 : ('\\' : Char).toLower = '\\' := by decide
  simp only [ciEq, h1, beq_iff_eq] at h
  exact eq_backslash_of_toLower h.symm

/-- Every pattern alternative starts with the literal backslash atom,
so a match forces a backslash as first subject character. -/
theorem matchBannedAt_head {c : Char} {t : List Char}
    (h : matchBannedAt (c :: t) = true) : c = '\\' := by
  simp only [matchBannedAt, bannedPatterns, BANNED_KEYWORDS, List.map, List.any,
    ciStartsWith, Bool.and_eq_true, Bool.or_eq_true, Bool.false_eq_true, or_false] at h
  rcases h with ⟨h1, _⟩ | ⟨h1, _⟩ | ⟨h1, _⟩ <;> exact eq_backslash_of_ciEq h1

theorem matchBannedAt_eq_false {c : Char} {t : List Char}
    (h : c ≠ '\\') : matchBannedAt (c :: t) = false := by
  cases hm : matchBannedAt (c :: t)
  · rfl
  · exact absurd (matchBannedAt_head hm) h

/-- A positive search result exhibits a backslash in the subject. -/
theorem backslash_mem_of_contains {l : List Char}
    (h : containsBannedAux l = true) : '\\' ∈ l := by
  induction l with
  | nil => simp [containsBannedAux] at h
  | cons c rest ih =>
      rw [containsBannedAux, Bool.or_eq_true] at h
      rcases h with h | h
      · rw [matchBannedAt_head h]
        exact List.mem_cons_self _ _
      · exact List.mem_cons_of_mem _ (ih h)

/-- When the search fails everywhere, substitution copies the subject. -/
theorem redactGo_eq_of_not_contains {l : List Char}
    (h : containsBannedAux l = false) : redactGo 0 l = l := by
  induction l with
  | nil => rfl
  | cons c rest ih =>
      rw [containsBannedAux, Bool.or_eq_false_iff] at h
      show (if matchBannedAt (c :: rest) then MARKER ++ redactGo 7 rest
        else c :: redactGo 0 rest) = c :: rest
      rw [if_neg (by simp [h.1]), ih h.2]

/-- C3: For every string containing no backslash character,
contains_banned_keyword returns false and redact_banned_keywords
returns the string unchanged, because the compiled pattern requires a
literal backslash-b sequence on each side of a banned term rather than
a regex word boundary. -/
theorem contains_false_redact_id_of_no_backslash (s : String) (h : '\\' ∉ s.data) :
    contains_banned_keyword s = false ∧ redact_banned_keywords s = s := by
  have hc : containsBannedAux s.data = false := by
    cases hb : containsBannedAux s.data
    · rfl
    · exact absurd (backslash_mem_of_contains hb) h
  refine ⟨hc, ?_⟩
  show String.mk (redactGo 0 s.data) = s
  rw [redactGo_eq_of_not_contains hc]

/-- Witness for C3 at the concrete backslash-free input of the spec. -/
theorem contains_false_redact_id_of_no_backslash_witness :
    contains_banned_keyword "how to kill time" = false ∧
    redact_banned_keywords "how to kill time" = "how to kill time" :=
  contains_false_redact_id_of_no_backslash "how to kill time" (by decide)

/-- A positive skip count just drops that many characters. -/
theorem redactGo_succ (n : Nat) : ∀ l : List Char, redactGo (n + 1) l = redactGo 0 (l.drop (n + 1)) := by
  induction n with
  | zero =>
      intro l
      cases l <;> rfl
  | succ m ih =>
      intro l
      cases l with
      | nil => rfl
      | cons c rest =>
          show redactGo (m + 1) rest = _
          rw [ih rest]
          rfl

theorem redactGo_cons_match {c : Char} {rest : List Char}
    (hm : matchBannedAt (c :: rest) = true) :
    redactGo 0 (c :: rest) = MARKER ++ redactGo 0 (rest.drop 7) := by
  show (if matchBannedAt (c :: rest) then MARKER ++ redactGo 7 rest
    else c :: redactGo 0 rest) = _
  rw [if_pos hm, redactGo_succ 6 rest]

theorem redactGo_cons_nomatch {c : Char} {rest : List Char}
    (hm : matchBannedAt (c :: rest) = false) :
    redactGo 0 (c :: rest) = c :: redactGo 0 rest := by
  show (if matchBannedAt (c :: rest) then MARKER ++ redactGo 7 rest
    else c :: redactGo 0 rest) = _
  rw [if_neg (by simp [hm])]

/-- A prefix match of pattern characters against a substituted subject
transfers back to the original subject: the marker starts with a
square bracket, which no pattern atom matches, so the matched span
never overlaps inserted marker text. -/
theorem ciStartsWith_redactGo :
    ∀ (n : Nat) (t : List Char), t.length ≤ n →
    ∀ p : List Char, (∀ a ∈ p, ciEq a '[' = false) →
    ciStartsWith p (redactGo 0 t) = true → ciStartsWith p t = true := by
  intro n
  induction n with
  | zero =>
      intro t ht p hp h
      have h0 : t = [] := List.eq_nil_of_length_eq_zero (Nat.le_zero.mp ht)
      subst h0
      cases p with
      | nil => rfl
      | cons p0 ps => simp [ciStartsWith] at h
  | succ n ih =>
      intro t ht p hp h
      cases t with
      | nil =>
          cases p with
          | nil => rfl
          | cons p0 ps => simp [ciStartsWith] at h
      | cons c rest =>
          cases p with
          | nil => rfl
          | cons p0 ps =>
              by_cases hm : matchBannedAt (c :: rest) = true
              · rw [redactGo_cons_match hm] at h
                simp only [ciStartsWith, Bool.and_eq_true] at h
                exact absurd h.1 (by simp [hp p0 (List.mem_cons_self _ _)])
              · rw [redactGo_cons_nomatch (Bool.eq_false_iff.mpr hm)] at h
                simp only [ciStartsWith, Bool.and_eq_true] at h ⊢
                refine ⟨h.1, ih rest (Nat.le_of_succ_le_succ ht) ps ?_ h.2⟩
                exact fun a ha => hp a (List.mem_cons_of_mem _ ha)

/-- Transfer of a whole-pattern match at a fixed head character. -/
theorem matchBannedAt_redactGo_cons {c : Char} {rest : List Char}
    (h : matchBannedAt (c :: redactGo 0 rest) = true) :
    matchBannedAt (c :: rest) = true := by
  rw [matchBannedAt, List.any_eq_true] at h ⊢
  obtain ⟨p, hmem, hpre⟩ := h
  refine ⟨p, hmem, ?_⟩
  have hall : ∀ q ∈ bannedPatterns, ∀ a ∈ q, ciEq a '[' = false := by decide
  cases p with
  | nil => rfl
  | cons p0 ps =>
      simp only [ciStartsWith, Bool.and_eq_true] at hpre ⊢
      refine ⟨hpre.1, ?_⟩
      exact ciStartsWith_redactGo rest.length rest le_rfl ps
        (fun a ha => hall _ hmem a (List.mem_cons_of_mem _ ha)) hpre.2

/-- Search skips over any block of backslash-free characters. -/
theorem containsBannedAux_append_no_bs {x : List Char} (hx : ∀ c ∈ x, c ≠ '\\') :
    ∀ u : List Char, containsBannedAux (x ++ u) = containsBannedAux u := by
  induction x with
  | nil => intro u; rfl
  | cons c xs ih =>
      intro u
      have h1 : matchBannedAt (c :: (xs ++ u)) = false :=
        matchBannedAt_eq_false (hx c (List.mem_cons_self _ _))
      show (matchBannedAt (c :: (xs ++ u)) || containsBannedAux (xs ++ u)) = _
      rw [h1, Bool.false_or]
      exact ih (fun a ha => hx a (List.mem_cons_of_mem _ ha)) u

/-- The substituted output never matches the pattern again: the marker
has no backslash, and a surviving span that matched in the output
would already have matched in the input. -/
theorem containsBannedAux_redactGo :
    ∀ (n : Nat) (l : List Char), l.length ≤ n →
    containsBannedAux (redactGo 0 l) = false := by
  intro n
  induction n with
  | zero =>
      intro l hl
      have h0 : l = [] := List.eq_nil_of_length_eq_zero (Nat.le_zero.mp hl)
      subst h0
      rfl
  | succ n ih =>
      intro l hl
      cases l with
      | nil => rfl
      | cons c rest =>
          by_cases hm : matchBannedAt (c :: rest) = true
          · rw [redactGo_cons_match hm,
              containsBannedAux_append_no_bs (by decide) (redactGo 0 (rest.drop 7))]
            refine ih (rest.drop 7) ?_
            have := List.length_drop 7 rest
            have : rest.length + 1 ≤ n + 1 := hl
            simp only [List.length_drop]
            omega
          · rw [redactGo_cons_nomatch (Bool.eq_false_iff.mpr hm)]
            have h2 : containsBannedAux (redactGo 0 rest) = false :=
              ih rest (Nat.le_of_succ_le_succ hl)
            have h1 : matchBannedAt (c :: redactGo 0 rest) = false := by
              cases hmc : matchBannedAt (c :: redactGo 0 rest)
              · rfl
              · exact absurd (matchBannedAt_redactGo_cons hmc) hm
            show (matchBannedAt (c :: redactGo 0 rest) || containsBannedAux (redactGo 0 rest)) = false
            rw [h1, h2, Bool.or_self]

/-- The redacted output of any subject contains no further match. -/
theorem contains_redact_eq_false (s : String) :
    contains_banned_keyword (redact_banned_keywords s) = false :=
  containsBannedAux_redactGo s.data.length s.data le_rfl

/-- C4: Redaction is idempotent: redacting a second time changes
nothing, and a subject with no match at all is returned unchanged. -/
theorem redact_idempotent (t : String) :
    redact_banned_keywords (redact_banned_keywords t) = redact_banned_keywords t ∧
    (contains_banned_keyword t = false → redact_banned_keywords t = t) := by
  constructor
  · show String.mk (redactGo 0 (redact_banned_keywords t).data) = _
    rw [show (redact_banned_keywords t).data = redactGo 0 t.data from rfl,
      redactGo_eq_of_not_contains (containsBannedAux_redactGo t.data.length t.data le_rfl)]
    rfl
  · intro h
    show String.mk (redactGo 0 t.data) = t
    rw [redactGo_eq_of_not_contains h]

/-- Witness for C4 discharging the no-match hypothesis concretely. -/
theorem redact_idempotent_witness :
    redact_banned_keywords (redact_banned_keywords "tell me a joke") =
      redact_banned_keywords "tell me a joke" ∧
    redact_banned_keywords "tell me a joke" = "tell me a joke" :=
  ⟨(redact_idempotent "tell me a joke").1,
   (redact_idempotent "tell me a joke").2 (by decide)⟩

/-- Substitution never shortens the subject: a match consumes 8
characters and emits the 10-character marker. -/
theorem redactGo_length_ge :
    ∀ (n : Nat) (l : List Char), l.length ≤ n → l.length ≤ (redactGo 0 l).length := by
  intro n
  induction n with
  | zero =>
      intro l hl
      have h0 : l = [] := List.eq_nil_of_length_eq_zero (Nat.le_zero.mp hl)
      subst h0
      exact Nat.le_refl 0
  | succ n ih =>
      intro l hl
      cases l with
      | nil => exact Nat.le_refl 0
      | cons c rest =>
          by_cases hm : matchBannedAt (c :: rest) = true
          · rw [redactGo_cons_match hm]
            have h1 := ih (rest.drop 7)
              (by have hl2 : rest.length + 1 ≤ n + 1 := hl
                  simp only [List.length_drop]
                  omega)
            simp only [List.length_append, List.length_cons, List.length_drop] at h1 ⊢
            show rest.length + 1 ≤ MARKER.length + (redactGo 0 (rest.drop 7)).length
            have h2 : MARKER.length = 10 := rfl
            omega
          · rw [redactGo_cons_nomatch (Bool.eq_false_iff.mpr hm)]
            have h1 := ih rest (Nat.le_of_succ_le_succ hl)
            simp only [List.length_cons]
            omega

/-- A matching subject grows strictly under substitution. -/
theorem redactGo_length_lt_of_contains :
    ∀ (n : Nat) (l : List Char), l.length ≤ n → containsBannedAux l = true →
    l.length < (redactGo 0 l).length := by
  intro n
  induction n with
  | zero =>
      intro l hl hc
      have h0 : l = [] := List.eq_nil_of_length_eq_zero (Nat.le_zero.mp hl)
      subst h0
      simp [containsBannedAux] at hc
  | succ n ih =>
      intro l hl hc
      cases l with
      | nil => simp [containsBannedAux] at hc
      | cons c rest =>
          by_cases hm : matchBannedAt (c :: rest) = true
          · rw [redactGo_cons_match hm]
            have h1 := redactGo_length_ge (rest.drop 7).length (rest.drop 7) le_rfl
            simp only [List.length_append, List.length_cons, List.length_drop] at h1 ⊢
            show rest.length + 1 < MARKER.length + (redactGo 0 (rest.drop 7)).length
            have h2 : MARKER.length = 10 := rfl
            omega
          · rw [containsBannedAux, Bool.or_eq_true] at hc
            rcases hc with hc | hc
            · exact absurd hc hm
            · rw [redactGo_cons_nomatch (Bool.eq_false_iff.mpr hm)]
              have h1 := ih rest (Nat.le_of_succ_le_succ hl) hc
              simp only [List.length_cons]
              omega

/-- C10: The match check and the redaction are consistent: the pattern
matches a string exactly when redacting changes it. -/
theorem contains_iff_redact_ne (t : String) :
    contains_banned_keyword t = true ↔ redact_banned_keywords t ≠ t := by
  constructor
  · intro h heq
    have hlt := redactGo_length_lt_of_contains t.data.length t.data le_rfl h
    have hdata : redactGo 0 t.data = t.data := congrArg String.data heq
    rw [hdata] at hlt
    exact Nat.lt_irrefl _ hlt
  · intro hne
    cases h : contains_banned_keyword t
    · refine absurd ?_ hne
      show String.mk (redactGo 0 t.data) = t
      rw [redactGo_eq_of_not_contains h]
    · rfl

/-!
Case insensitivity.  Two strings are case-equivalent when they agree
pointwise after case folding; this is the set of strings obtained from
one another by changing only letter casing.  Both helpers compare
every character through the same case folding, so they treat
case-equivalent subjects identically.
-/

/-- Pointwise agreement after case folding. -/
def CaseEquivL (l₁ l₂ : List Char) : Prop :=
  List.Forall₂ (fun a b => a.toLower = b.toLower) l₁ l₂

/-- Case equivalence of strings. -/
def CaseEquiv (s₁ s₂ : String) : Prop := CaseEquivL s₁.data s₂.data

theorem ciEq_congr {p a b : Char} (h : a.toLower = b.toLower) : ciEq p a = ciEq p b := by
  simp [ciEq, h]

theorem ciStartsWith_congr {l₁ l₂ : List Char} (h : CaseEquivL l₁ l₂) :
    ∀ p : List Char, ciStartsWith p l₁ = ciStartsWith p l₂ := by
  induction h with
  | nil => intro p; cases p <;> rfl
  | cons hab htl ih =>
      intro p
      cases p with
      | nil => rfl
      | cons p0 ps =>
          show (ciEq p0 _ && ciStartsWith ps _) = (ciEq p0 _ && ciStartsWith ps _)
          rw [ciEq_congr hab, ih ps]

theorem matchBannedAt_congr {l₁ l₂ : List Char} (h : CaseEquivL l₁ l₂) :
    matchBannedAt l₁ = matchBannedAt l₂ := by
  unfold matchBannedAt
  rw [funext fun p => ciStartsWith_congr h p]

theorem containsBannedAux_congr {l₁ l₂ : List Char} (h : CaseEquivL l₁ l₂) :
    containsBannedAux l₁ = containsBannedAux l₂ := by
  induction h with
  | nil => rfl
  | @cons a b t₁ t₂ hab htl ih =>
      show (matchBannedAt (a :: t₁) || containsBannedAux t₁) =
        (matchBannedAt (b :: t₂) || containsBannedAux t₂)
      rw [matchBannedAt_congr (List.Forall₂.cons hab htl), ih]

theorem caseEquivL_append {a₁ a₂ b₁ b₂ : List Char}
    (ha : CaseEquivL a₁ a₂) (hb : CaseEquivL b₁ b₂) : CaseEquivL (a₁ ++ b₁) (a₂ ++ b₂) := by
  induction ha with
  | nil => exact hb
  | cons hab htl ih => exact List.Forall₂.cons hab ih

theorem redactGo_congr :
    ∀ (n : Nat) (l₁ l₂ : List Char), l₁.length ≤ n → CaseEquivL l₁ l₂ →
    CaseEquivL (redactGo 0 l₁) (redactGo 0 l₂) := by
  intro n
  induction n with
  | zero =>
      intro l₁ l₂ hl h
      have h0 : l₁ = [] := List.eq_nil_of_length_eq_zero (Nat.le_zero.mp hl)
      subst h0
      cases h
      exact List.Forall₂.nil
  | succ n ih =>
      intro l₁ l₂ hl h
      cases h with
      | nil => exact List.Forall₂.nil
      | @cons a b t₁ t₂ hab htl =>
          have hmeq : matchBannedAt (a :: t₁) = matchBannedAt (b :: t₂) :=
            matchBannedAt_congr (List.Forall₂.cons hab htl)
          by_cases hm : matchBannedAt (a :: t₁) = true
          · rw [redactGo_cons_match hm, redactGo_cons_match (hmeq ▸ hm)]
            refine caseEquivL_append (List.forall₂_same.mpr fun x _ => rfl) ?_
            refine ih (t₁.drop 7) (t₂.drop 7) ?_ (List.forall₂_drop 7 htl)
            have hl2 : t₁.length + 1 ≤ n + 1 := hl
            simp only [List.length_drop]
            omega
          · have hm1 : matchBannedAt (a :: t₁) = false := Bool.eq_false_iff.mpr hm
            rw [redactGo_cons_nomatch hm1, redactGo_cons_nomatch (hmeq ▸ hm1)]
            exact List.Forall₂.cons hab (ih t₁ t₂ (Nat.le_of_succ_le_succ hl) htl)

/-- C5: Banned-term matching is case-insensitive: case-equivalent
strings get the same match verdict, and redaction carries
case-equivalent strings to case-equivalent strings, replacing
pattern occurrences in any letter casing. -/
theorem contains_redact_case_insensitive (t t₂ : String) (h : CaseEquiv t t₂) :
    contains_banned_keyword t = contains_banned_keyword t₂ ∧
    CaseEquiv (redact_banned_keywords t) (redact_banned_keywords t₂) := by
  refine ⟨containsBannedAux_congr h, ?_⟩
  show CaseEquivL (redactGo 0 t.data) (redactGo 0 t₂.data)
  exact redactGo_congr t.data.length t.data t₂.data le_rfl h

/-- Witness for C5 at a concrete case-variant pair carrying a pattern
occurrence in different casings. -/
theorem contains_redact_case_insensitive_witness :
    contains_banned_keyword "say \\bKILL\\b now" = contains_banned_keyword "say \\bkill\\b NOW" ∧
    CaseEquiv (redact_banned_keywords "say \\bKILL\\b now")
      (redact_banned_keywords "say \\bkill\\b NOW") :=
  contains_redact_case_insensitive "say \\bKILL\\b now" "say \\bkill\\b NOW"
    (by simp only [CaseEquiv, CaseEquivL, List.forall₂_cons]; decide)

/-- C6: With the credential absent, the process prints the specific
error lines and stops with exit status 1: no prompt is read, no
moderation check runs, no network call is made. -/
theorem missing_key_halts (input : String) (api : ApiOutcome) :
    runProgram none input api = ⟨missingKeyLines, false, false, false, 1⟩ := rfl

/-- C7: Input that is empty after stripping gets the notice and a
normal return: exit status 0, no moderation check, no network call. -/
theorem empty_input_soft_exit (k input : String) (api : ApiOutcome)
    (hk : k ≠ "") (h : pyStrip input = "") :
    runProgram (some k) input api =
      ⟨bannerLines ++ ["No prompt provided. Exiting."], true, false, false, 0⟩ := by
  simp [runProgram, mainRun, hk, h]

/-- Witness for C7: whitespace-only input. -/
theorem empty_input_soft_exit_witness :
    runProgram (some "sk-test") "   " (.otherError "unused") =
      ⟨bannerLines ++ ["No prompt provided. Exiting."], true, false, false, 0⟩ :=
  empty_input_soft_exit "sk-test" "   " (.otherError "unused") (by decide) (by decide)

/-- C8: A response lacking choices[0].message.content is reported with
its raw payload and the run ends with nothing else printed. -/
theorem malformed_response_reported (k input raw : String)
    (hk : k ≠ "") (h1 : pyStrip input ≠ "") (h2 : contains_banned_keyword (pyStrip input) = false) :
    runProgram (some k) input (.success raw none) =
      ⟨bannerLines ++ ["Unexpected API response format:", raw], true, true, true, 0⟩ := by
  simp [runProgram, mainRun, hk, h1, h2]

/-- Witness for C8 at a concrete clean input and payload. -/
theorem malformed_response_reported_witness :
    runProgram (some "sk-test") "tell me a joke" (.success "null" none) =
      ⟨bannerLines ++ ["Unexpected API response format:", "null"], true, true, true, 0⟩ :=
  malformed_response_reported "sk-test" "tell me a joke" "null"
    (by decide) (by decide) (by decide)

/-- C9: A clean input with a reply the pattern does not match is
printed verbatim under the plain label, with no redaction label. -/
theorem clean_reply_verbatim (k input raw reply : String)
    (hk : k ≠ "") (h1 : pyStrip input ≠ "") (h2 : contains_banned_keyword (pyStrip input) = false)
    (h3 : contains_banned_keyword reply = false) :
    runProgram (some k) input (.success raw (some reply)) =
      ⟨bannerLines ++ ["AI response:", reply], true, true, true, 0⟩ := by
  simp [runProgram, mainRun, hk, h1, h2, h3]

/-- Witness for C9 at the concrete spec example. -/
theorem clean_reply_verbatim_witness :
    runProgram (some "sk-test") "tell me a joke"
      (.success "resp" (some "Why did the chicken cross the road?")) =
      ⟨bannerLines ++ ["AI response:", "Why did the chicken cross the road?"],
        true, true, true, 0⟩ :=
  clean_reply_verbatim "sk-test" "tell me a joke" "resp" "Why did the chicken cross the road?"
    (by decide) (by decide) (by decide) (by decide)

/-- C1 evaluation at the failing input: the prompt "how to kill time"
contains the banned word kill as a standalone word, yet the filter
does not match it (the pattern wants literal backslash-b around the
keyword), so main proceeds to the network call instead of rejecting. -/
theorem banned_input_not_rejected :
    contains_banned_keyword "how to kill time" = false ∧
    runProgram (some "sk-test") "how to kill time" (.httpError "connection refused" none) =
      ⟨bannerLines ++ ["API request failed: connection refused"], true, true, true, 0⟩ := by
  decide

/-- C2 evaluation at the failing reply: a reply containing hack as a
standalone word is printed verbatim under the plain label, with no
redaction and no redaction label. -/
theorem banned_reply_not_redacted :
    contains_banned_keyword "I can hack it for you" = false ∧
    redact_banned_keywords "I can hack it for you" = "I can hack it for you" ∧
    runProgram (some "sk-test") "tell me a joke"
      (.success "resp" (some "I can hack it for you")) =
      ⟨bannerLines ++ ["AI response:", "I can hack it for you"], true, true, true, 0⟩ := by
  decide
